import Mathlib

/-!
Verification development for the words-hk-parse dictionary parser.

The definitions below are shallow embeddings of the TypeScript source:
  * `src/utils/text.ts`     : character classifiers and the punctuation table
  * `src/utils/cantonese.ts`: `splitString` and `parseCantoneseReadings`
  * the parser module       : `ParseError`-raising functions `parseEntry`,
    `parseHeadwords`, `parseTags`, `parseSense`, `parseLanguageData`
  * the constants module    : `LANGUAGES_DATA`

JavaScript-level conventions used throughout:
  * a thrown `Error`/`ParseError` is modelled as `Except.error` carrying the message;
  * `String.prototype.split` with a one-character separator is `jsSplitChar`,
    with a literal multi-character separator it is `jsSplitStr`;
  * `str.split(/^DELIM$/gm)` (an anchored full-line match, used with `----` and
    `<eg>`) is `regexLineSplit`: the matched delimiter line is removed while the
    newlines surrounding it stay with the neighbouring fragments;
  * `String.prototype.trim` is `jsTrim`;
  * iteration `for (const char of s)` walks code points, which is `String.data`.
-/

/-- JavaScript whitespace used by `trim` and by `parseInt` skipping. -/
def jsWsChar (c : Char) : Bool :=
  c = ' ' || c = '\t' || c = '\n' || c = '\r' ||
  c = Char.ofNat 0x0B || c = Char.ofNat 0x0C || c = Char.ofNat 0xA0 ||
  c = Char.ofNat 0xFEFF || c = Char.ofNat 0x2028 || c = Char.ofNat 0x2029

/-- Core of `String.prototype.trim`: drop whitespace at both ends of the char list. -/
def trimChars (l : List Char) : List Char :=
  (((l.dropWhile jsWsChar).reverse.dropWhile jsWsChar)).reverse

/-- JavaScript `String.prototype.trim`. -/
def jsTrim (s : String) : String :=
  String.mk (trimChars s.data)

/-- Worker for `str.split(c)` with a one-character separator: always at least one fragment. -/
def splitCharList (c : Char) : List Char → List (List Char)
  | [] => [[]]
  | a :: rest =>
    let r := splitCharList c rest
    if a = c then [] :: r
    else
      match r with
      | [] => [[a]]
      | g :: gs => (a :: g) :: gs

/-- JavaScript `str.split(c)` on strings. -/
def jsSplitChar (c : Char) (s : String) : List String :=
  (splitCharList c s.data).map String.mk

/-- Fuel-driven worker for `str.split(sep)` with a literal separator string. -/
def splitStrAux (sep : List Char) : Nat → List Char → List Char → List (List Char)
  | 0, cur, l => [cur.reverse ++ l]
  | Nat.succ fuel, cur, l =>
    match l with
    | [] => [cur.reverse]
    | a :: rest =>
      if sep.isPrefixOf l && !sep.isEmpty then
        cur.reverse :: splitStrAux sep fuel [] (l.drop sep.length)
      else
        splitStrAux sep fuel (a :: cur) rest

/-- JavaScript `str.split(sep)` for a literal (non-empty in all uses) separator string. -/
def jsSplitStr (sep : String) (s : String) : List String :=
  (splitStrAux sep.data s.data.length [] s.data).map String.mk

/-- Fuel-driven worker for `str.replace(pat, rep)` with a literal pattern:
replaces only the first occurrence, like the JavaScript string overload. -/
def replaceFirstAux (pat rep : List Char) : Nat → List Char → List Char
  | 0, l => l
  | Nat.succ fuel, l =>
    match l with
    | [] => []
    | a :: rest =>
      if pat.isPrefixOf l && !pat.isEmpty then rep ++ l.drop pat.length
      else a :: replaceFirstAux pat rep fuel rest

/-- JavaScript `str.replace(pat, rep)` with a literal pattern string. -/
def jsReplaceFirst (pat rep s : String) : String :=
  String.mk (replaceFirstAux pat.data rep.data s.data.length s.data)

/-- Newline join, as in `Array.prototype.join` with a newline separator. -/
def joinNL : List String → String
  | [] => ""
  | [a] => a
  | a :: b :: rest => a ++ "\n" ++ joinNL (b :: rest)

/-- Index of the first occurrence of a character, `String.prototype.indexOf`
restricted to the found/not-found distinction. -/
def idxOfChar (c : Char) : List Char → Option Nat
  | [] => none
  | a :: rest => if a = c then some 0 else (idxOfChar c rest).map Nat.succ

/-- Holds exactly on `Except.error`, i.e. when the JavaScript call throws. -/
def isErr {α : Type} : Except String α → Bool
  | .error _ => true
  | .ok _ => false

/-! ## `src/utils/text.ts` -/

/-- The `punctuations` table, duplicates included, in source order. -/
def punctuations : List String :=
  ["，", ",", "。", ".", "？", "?", "！", "!", "；", ";", "：", ":", "、", ",", "，", "⋯"]

/-- One code point of the CJK Unified Ideographs block or its extensions A–E,
the blocks matched by the XRegExp pattern inside `isHanzi`. -/
def isCJKChar (c : Char) : Bool :=
  (0x4E00 ≤ c.toNat && c.toNat ≤ 0x9FFF) ||
  (0x3400 ≤ c.toNat && c.toNat ≤ 0x4DBF) ||
  (0x20000 ≤ c.toNat && c.toNat ≤ 0x2A6DF) ||
  (0x2A700 ≤ c.toNat && c.toNat ≤ 0x2B73F) ||
  (0x2B740 ≤ c.toNat && c.toNat ≤ 0x2B81F) ||
  (0x2B820 ≤ c.toNat && c.toNat ≤ 0x2CEAF)

/-- Model of `isHanzi`: the unanchored regex test succeeds iff some character of the
string lies in one of the CJK blocks. -/
def isHanzi (text : String) : Bool :=
  text.data.any isCJKChar

/-- The test `[a-zA-Z0-9]` on one character. -/
def isAlnumChar (c : Char) : Bool :=
  ('a' ≤ c && c ≤ 'z') || ('A' ≤ c && c ≤ 'Z') || ('0' ≤ c && c ≤ '9')

/-- The test `[a-zA-Z]` on one character. -/
def isAlphaChar (c : Char) : Bool :=
  ('a' ≤ c && c ≤ 'z') || ('A' ≤ c && c ≤ 'Z')

/-- Model of `isJyuutping`: the unanchored regex `/[a-zA-Z0-9]/` tests whether some
character is ASCII alphanumeric. -/
def isJyuutping (text : String) : Bool :=
  text.data.any isAlnumChar

/-- Model of `isPunctuation`: exact membership in the `punctuations` table. -/
def isPunctuation (text : String) : Bool :=
  punctuations.contains text

/-! ## `src/utils/cantonese.ts` — tokenizer -/

/-- The test `[a-zA-Z]` on the last character of the run under
construction (the run only ever holds ASCII alphanumerics, so the JavaScript
code-unit index equals the code-point index). -/
def lastIsAlpha (current : String) : Bool :=
  match current.data.getLast? with
  | some c => isAlphaChar c
  | none => false

/-- One character step of `splitString`'s scan loop: state is
(tokens already pushed, run under construction). -/
def splitStep (st : List String × String) (c : Char) : List String × String :=
  let acc := st.1
  let current := st.2
  if isAlnumChar c then
    if !(current == "") && isAlphaChar c && !(lastIsAlpha current) then
      (acc ++ [current], String.mk [c])
    else
      (acc, current.push c)
  else if punctuations.contains (String.mk [c]) then
    (acc ++ (if current == "" then [] else [current]) ++ [String.mk [c]], "")
  else
    (acc ++ (if current == "" then [] else [current]) ++ [String.mk [c]], "")

/-- Model of `splitString`: scan, flush the trailing run, then trim every token and
drop the empty ones. -/
def splitString (input : String) : List String :=
  let st := input.data.foldl splitStep ([], "")
  let all := if st.2 == "" then st.1 else st.1 ++ [st.2]
  (all.map jsTrim).filter (fun item => !(item == ""))

/-! ## `src/utils/cantonese.ts` — reading aligner -/

structure TextReadingPair where
  text : String
  reading : String
deriving DecidableEq, Repr

/-- JavaScript truthiness of `textArray[i]` : `undefined` and `""` are falsy. -/
def truthy : Option String → Bool
  | none => false
  | some s => !(s == "")

/-- Condition of the first (ideal) branch of the alignment loop. -/
def alignCond1 (text reading : Option String) : Bool :=
  truthy text && truthy reading &&
    ((isHanzi (text.getD "") && isJyuutping (reading.getD "")) ||
     (isJyuutping (text.getD "") && isJyuutping (reading.getD "")))

/-- Condition of the second branch (consume only the text token).  When
`reading` is `undefined` the JavaScript condition always holds through its
middle disjunct, which the `reading.isNone` disjunct reproduces. -/
def alignCond2 (text reading : Option String) : Bool :=
  truthy text &&
    ((isPunctuation (text.getD "") && isJyuutping (reading.getD "")) ||
     reading.isNone ||
     (!(isJyuutping (text.getD "")) && !(isHanzi (text.getD "")) &&
      isJyuutping (reading.getD "")))

/-- Condition of the third branch (decorative pair, consume both). -/
def alignCond3 (text reading : Option String) : Bool :=
  truthy text && truthy reading &&
    ((isPunctuation (text.getD "") && isPunctuation (reading.getD "")) ||
     (!(isJyuutping (text.getD "")) && !(isHanzi (text.getD "")) &&
      !(isJyuutping (reading.getD ""))))

/-- The `for` loop of `parseCantoneseReadings`.  The two cursors are modelled
by the unconsumed suffixes of the token arrays; the loop runs exactly
`max(textArray.length, readingsArray.length)` iterations unless it throws. -/
def alignGo :
    Nat → List String → List String → List TextReadingPair →
    Except String (List TextReadingPair × List String × List String)
  | 0, ts, rs, acc => .ok (acc, ts, rs)
  | Nat.succ n, ts, rs, acc =>
    let text := ts.head?
    let reading := rs.head?
    if alignCond1 text reading then
      alignGo n ts.tail rs.tail (acc ++ [⟨text.getD "", reading.getD ""⟩])
    else if alignCond2 text reading then
      alignGo n ts.tail rs (acc ++ [⟨text.getD "", ""⟩])
    else if alignCond3 text reading then
      alignGo n ts.tail rs.tail (acc ++ [⟨text.getD "", ""⟩])
    else
      .error ("Unexpected text and reading while aligning")

/-- Model of `parseCantoneseReadings`: tokenize both strings, run the alignment loop,
then fail if reading tokens are left unconsumed. -/
def parseCantoneseReadings (rawText readings : String) :
    Except String (List TextReadingPair) :=
  let textArray := splitString rawText
  let readingsArray := splitString readings
  match alignGo (max textArray.length readingsArray.length) textArray readingsArray [] with
  | .error e => .error e
  | .ok (res, _, rsRest) =>
    if rsRest.isEmpty then .ok res
    else .error ("Unexpected reading: unconsumed readings remain")

/-- The reading fields of the emitted pairs that are non-empty, in order. -/
def nonEmptyReadings (l : List TextReadingPair) : List String :=
  (l.map (fun p => p.reading)).filter (fun s => !(s == ""))

example : splitString ("你get唔get到我講咩？") =
    ["你", "get", "唔", "get", "到", "我", "講", "咩", "？"] := by decide
example : splitString ("nei5 get1 m4 get1 dou2 ngo5 gong2 me1?") =
    ["nei5", "get1", "m4", "get1", "dou2", "ngo5", "gong2", "me1", "?"] := by decide
example : splitString ("bit1ging1") = ["bit1", "ging1"] := by decide
example : splitString ("bitging") = ["bitging"] := by decide
example : parseCantoneseReadings "你" "nei5" = .ok [⟨"你", "nei5"⟩] := rfl
example : isErr (parseCantoneseReadings "你" "nei5 hou2") = true := by decide
example : parseCantoneseReadings "。" "。" = .ok [⟨"。", ""⟩] := rfl

/-! ## Constants module — `LANGUAGES_DATA` -/

structure LanguageInfo where
  name : String
  shortName : String
  langCode : String
deriving DecidableEq, Repr

/-- The closed language table, in source order. -/
def LANGUAGES_DATA : List (String × LanguageInfo) :=
  [("yue", ⟨"廣東話", "粵", "yue"⟩),
   ("eng", ⟨"英文", "英", "en"⟩),
   ("zho", ⟨"中文", "中", "zh-Hant"⟩),
   ("jpn", ⟨"日文", "日", "ja"⟩),
   ("kor", ⟨"韓文", "韓", "ko"⟩),
   ("vie", ⟨"越南文", "越", "vi"⟩),
   ("lzh", ⟨"文言文", "文", "zh-Hant"⟩),
   ("por", ⟨"葡萄牙文", "葡", "pt"⟩),
   ("deu", ⟨"德文", "德", "de"⟩),
   ("fra", ⟨"法文", "法", "fr"⟩),
   ("mnc", ⟨"滿文", "滿", "mnc"⟩),
   ("lat", ⟨"拉丁文", "拉", "la"⟩),
   ("tib", ⟨"藏文", "藏", "bo"⟩),
   ("量詞", ⟨"量詞", "量詞", ""⟩)]

/-- Property names a plain object literal inherits from `Object.prototype`:
looking any of them up on `LANGUAGES_DATA` (or on the accumulating
`languageData` object) returns the inherited function or prototype object,
which is truthy, even though the name is not an own key. -/
def protoKeys : List String :=
  ["constructor", "hasOwnProperty", "isPrototypeOf", "propertyIsEnumerable",
   "toLocaleString", "toString", "valueOf", "__proto__",
   "__defineGetter__", "__defineSetter__", "__lookupGetter__", "__lookupSetter__"]

/-- The truthiness test `LANGUAGES_DATA[matchedLang]`: the language table's
values are objects, hence the lookup is truthy when the key is an own key —
or when it is a property name inherited from `Object.prototype`, which the
unguarded bracket lookup also reaches. -/
def isLanguage (s : String) : Bool :=
  LANGUAGES_DATA.any (fun kv => kv.1 == s) || protoKeys.contains s

/-! ## Parser module — data model -/

/-- The `LanguageData` type: a plain-object mapping from language code to segment list,
modelled as an association list in key-insertion order (JavaScript objects
enumerate string keys in insertion order). -/
abbrev LanguageData := List (String × List String)

structure Headword where
  text : String
  readings : List String
deriving DecidableEq, Repr

structure Tag where
  name : String
  value : String
deriving DecidableEq, Repr

structure Sense where
  explanation : LanguageData
  egs : List LanguageData
deriving DecidableEq, Repr

structure DictionaryEntry where
  id : Int
  headwords : List Headword
  tags : List Tag
  senses : List Sense
deriving DecidableEq, Repr

structure CsvRecord where
  id : String
  headword : String
  entry : String
  variants : String
  warning : String
  public : String
deriving DecidableEq, Repr

/-- The `for (const x of xs) out.push(f(x))` pattern over a fallible body:
the first thrown error propagates, otherwise the results are collected. -/
def mapE {α β : Type} (f : α → Except String β) : List α → Except String (List β)
  | [] => .ok []
  | a :: rest =>
    match f a with
    | .error e => .error e
    | .ok b =>
      match mapE f rest with
      | .error e => .error e
      | .ok bs => .ok (b :: bs)

/-! ## Parser module — `parseLanguageData` -/

/-- The `languageData[lang]` push with create-if-absent:
`if (!languageData[currentLang]) languageData[currentLang] = []` then `push`. -/
def pushSeg (ld : LanguageData) (k : String) (v : String) : LanguageData :=
  if ld.any (fun kv => kv.1 == k) then
    ld.map (fun kv => if kv.1 == k then (kv.1, kv.2 ++ [v]) else kv)
  else
    ld ++ [(k, [v])]

/-- Model of `addCurrentLangData`: flush the running buffer.  Returns the new
`(languageData, currentLang, currentLangData)` triple; the two early returns
leave all three unchanged.  When the current language is a name inherited
from `Object.prototype` with no own entry, the truthy lookup
`languageData[currentLang]` skips the array creation and the subsequent
`push` is invoked on the inherited non-array value, a `TypeError`. -/
def addCurrentLangData (ld : LanguageData) (lang data : String) :
    Except String (LanguageData × String × String) :=
  if lang == "" then .ok (ld, lang, data)
  else if data == "" then .ok (ld, lang, data)
  else if !(ld.any (fun kv => kv.1 == lang)) && protoKeys.contains lang then
    .error ("TypeError: languageData[currentLang].push is not a function")
  else .ok (pushSeg ld lang (jsTrim data), "", "")

/-- The language candidate, `line.split` at colons, first element. -/
def beforeColon (line : String) : String :=
  (jsSplitChar ':' line).headD ""

/-- The line loop of `parseLanguageData`, followed by the final flush. -/
def pldGo : List String → LanguageData → String → String → Except String LanguageData
  | [], ld, lang, data =>
    match addCurrentLangData ld lang data with
    | .error e => .error e
    | .ok st => .ok st.1
  | line :: rest, ld, lang, data =>
    let matchedLang := beforeColon line
    if !(line.data.contains ':') then
      pldGo rest ld lang (data ++ "\n" ++ jsTrim line)
    else if !(isLanguage matchedLang) then
      .error ("Invalid language: " ++ matchedLang)
    else
      match addCurrentLangData ld lang data with
      | .error e => .error e
      | .ok st =>
        pldGo rest st.1 matchedLang (jsTrim (jsReplaceFirst (matchedLang ++ ":") "" line))

/-- Model of `parseLanguageData`. -/
def parseLanguageData (text : String) : Except String LanguageData :=
  pldGo (jsSplitChar '\n' text) [] "" ""

/-! ## Parser module — `parseHeadwords`, `parseTags` -/

/-- Model of `parseHeadwords`.  In the source, `const [text, ...readings]` destructures
`headword.split(':')`; the guard `!text || !readings` only ever fires through
`!text` because a rest-element is always an array, and arrays are truthy. -/
def parseHeadwords (headwordString : String) : Except String (List Headword) :=
  mapE
    (fun headword =>
      match jsSplitChar ':' headword with
      | [] => .error ("Invalid headword: " ++ headword)
      | text :: readings =>
        if text == "" then .error ("Invalid headword: " ++ headword)
        else .ok { text := text, readings := readings })
    (jsSplitChar ',' headwordString)

/-- One `(name:value)` fragment: strip all parentheses, split at the first
colon (when there is none, `slice(0, -1)` drops the last character and
`slice(0)` keeps everything), trim both halves. -/
def parseOneTag (tag : String) : Tag :=
  let t := tag.data.filter (fun c => !(c == '(') && !(c == ')'))
  match idxOfChar ':' t with
  | some i => ⟨jsTrim (String.mk (t.take i)), jsTrim (String.mk (t.drop (i + 1)))⟩
  | none => ⟨jsTrim (String.mk t.dropLast), jsTrim (String.mk t)⟩

/-- Model of `parseTags`, as the pure form returning the tag list and the remaining
lines (the source mutates `entryLines` with `shift()`; success always leaves
exactly the tail).  An empty `entryLines` would make `entryLines[0].startsWith`
throw a `TypeError` in JavaScript. -/
def parseTags : List String → Except String (List Tag × List String)
  | [] => .error ("TypeError: cannot read properties of undefined")
  | l :: rest =>
    if !(("(pos:").data.isPrefixOf l.data) then
      .error ("Entry does not start with (pos:): " ++ l)
    else if l == "" then
      .error ("Entry is empty")
    else
      let tags := (jsSplitStr (")(") l).map parseOneTag
      if tags.length == 0 then .error ("No tags found: " ++ l)
      else .ok (tags, rest)

/-! ## Parser module — `parseSense`, `parseEntry` -/

/-- Split a line list on lines equal to the delimiter, keeping empty groups. -/
def splitElem (d : String) : List String → List (List String)
  | [] => [[]]
  | a :: rest =>
    let r := splitElem d rest
    if a == d then [] :: r
    else
      match r with
      | [] => [[a]]
      | g :: gs => (a :: g) :: gs

/-- Boundary decoration for every group after the first: a matched delimiter
line loses its text but the surrounding newlines stay with the fragments,
so an inner group gains an empty line on both sides, the last only in front. -/
def decorateRest : List (List String) → List (List String)
  | [] => []
  | [g] => [("" :: g)]
  | g :: h :: rest => (("" :: g) ++ [""]) :: decorateRest (h :: rest)

/-- Boundary decoration of all groups (first group: empty line after only). -/
def decorate : List (List String) → List (List String)
  | [] => []
  | [g] => [g]
  | g :: h :: rest => (g ++ [""]) :: decorateRest (h :: rest)

/-- JavaScript `str.split` on the anchored full-line regex of a delimiter with no regex
metacharacters (`----`, `<eg>`): split the line list on delimiter lines and
rejoin each decorated group. -/
def regexLineSplit (d : String) (s : String) : List String :=
  (decorate (splitElem d (jsSplitChar '\n' s))).map joinNL

/-- Model of `parseSense`: drop one leading explanation marker, split on `<eg>` lines
into the explanation block and the example blocks. -/
def parseSense (entryText : String) : Except String Sense :=
  let t := jsReplaceFirst ("<explanation>\n") "" entryText
  match regexLineSplit ("<eg>") t with
  | [] => .error ("TypeError: cannot read properties of undefined")
  | explanationText :: examplesTexts =>
    match parseLanguageData explanationText with
    | .error e => .error e
    | .ok explanation =>
      match mapE parseLanguageData examplesTexts with
      | .error e => .error e
      | .ok egs => .ok { explanation := explanation, egs := egs }

/-- JavaScript `parseInt(s)` with no radix argument: skip whitespace, optional sign,
then a `0x`/`0X` hexadecimal literal or a decimal digit run; `none` is `NaN`. -/
def js_parseInt (s : String) : Option Int :=
  let l := s.data.dropWhile jsWsChar
  let sgn : Int := match l.head? with | some '-' => -1 | _ => 1
  let l2 := match l.head? with
    | some '-' => l.tail
    | some '+' => l.tail
    | _ => l
  let hex := match l2 with
    | '0' :: 'x' :: _ => true
    | '0' :: 'X' :: _ => true
    | _ => false
  let base : Nat := if hex then 16 else 10
  let body := if hex then l2.drop 2 else l2
  let isDig := fun (c : Char) =>
    ('0' ≤ c && c ≤ '9') || (hex && (('a' ≤ c && c ≤ 'f') || ('A' ≤ c && c ≤ 'F')))
  let digVal := fun (c : Char) =>
    if '0' ≤ c && c ≤ '9' then c.toNat - '0'.toNat
    else if 'a' ≤ c && c ≤ 'f' then c.toNat - 'a'.toNat + 10
    else c.toNat - 'A'.toNat + 10
  let ds := body.takeWhile isDig
  if ds.isEmpty then none
  else some (sgn * Int.ofNat (ds.foldl (fun acc c => acc * base + digVal c) 0))

/-- Model of `parseEntry`: validate the id, then headwords, tags (consuming the first
body line), and the `----`-separated senses of the remaining lines. -/
def parseEntry (rec : CsvRecord) : Except String DictionaryEntry :=
  match js_parseInt rec.id with
  | none => .error ("Invalid id: " ++ rec.id)
  | some id =>
    match parseHeadwords rec.headword with
    | .error e => .error e
    | .ok headwords =>
      let entryLines := jsSplitChar '\n' rec.entry
      match parseTags entryLines with
      | .error e => .error e
      | .ok (tags, restLines) =>
        let explanationsText := joinNL restLines
        let explanationsTexts := regexLineSplit ("----") explanationsText
        match mapE parseSense explanationsTexts with
        | .error e => .error e
        | .ok senses => .ok { id := id, headwords := headwords, tags := tags, senses := senses }

example : parseLanguageData ("eng:hello\nyue:你好\neng:world") =
    .ok [("eng", ["hello", "world"]), ("yue", ["你好"])] := rfl
example : parseLanguageData ("yue:") = .ok [] := rfl
example : parseLanguageData ("yue:\n ") = .ok [("yue", [""])] := rfl
example : isErr (parseLanguageData ("abc:x")) = true := by decide
example : parseHeadwords ("飲茶") = .ok [⟨"飲茶", []⟩] := rfl
example : parseHeadwords ("飲茶:jam2 caa4") = .ok [⟨"飲茶", ["jam2 caa4"]⟩] := rfl
example : parseTags [("(pos:名詞)(label:書面語)")] =
    .ok ([⟨"pos", "名詞"⟩, ⟨"label", "書面語"⟩], []) := rfl
example : js_parseInt ("0") = some 0 := rfl
example : js_parseInt ("-3") = some (-3) := rfl
example : js_parseInt ("abc") = none := rfl
example : js_parseInt ("12x") = some 12 := rfl

/-! ## Helper lemmas — tokenizer and aligner -/

/-- Every entry of the punctuation table is free of ASCII alphanumerics. -/
theorem punct_no_alnum : ∀ s ∈ punctuations, isJyuutping s = false := by decide

theorem isPunctuation_not_jyut {s : String} (h : isPunctuation s = true) :
    isJyuutping s = false := by
  have hm : s ∈ punctuations := by simpa [isPunctuation] using h
  exact punct_no_alnum s hm

theorem truthy_head {l : List String} (h : truthy l.head? = true) :
    ∃ a t, l = a :: t ∧ a ≠ "" := by
  cases l with
  | nil => simp [truthy] at h
  | cons a t =>
    refine ⟨a, t, rfl, ?_⟩
    simpa [truthy] using h

theorem alignCond1_parts {t r : Option String} (h : alignCond1 t r = true) :
    truthy t = true ∧ truthy r = true ∧ isJyuutping (r.getD "") = true := by
  simp only [alignCond1, Bool.and_eq_true, Bool.or_eq_true] at h
  obtain ⟨⟨ht, hr⟩, hd⟩ := h
  refine ⟨ht, hr, ?_⟩
  rcases hd with ⟨_, hj⟩ | ⟨_, hj⟩ <;> exact hj

theorem alignCond2_truthy {t r : Option String} (h : alignCond2 t r = true) :
    truthy t = true := by
  simp only [alignCond2, Bool.and_eq_true] at h
  exact h.1

theorem alignCond3_parts {t r : Option String} (h : alignCond3 t r = true) :
    truthy t = true ∧ truthy r = true ∧ isJyuutping (r.getD "") = false := by
  simp only [alignCond3, Bool.and_eq_true, Bool.or_eq_true, Bool.not_eq_true'] at h
  obtain ⟨⟨ht, hr⟩, hd⟩ := h
  refine ⟨ht, hr, ?_⟩
  rcases hd with ⟨_, hp⟩ | hj3
  · exact isPunctuation_not_jyut hp
  · exact hj3.2

theorem nonEmptyReadings_append (a b : List TextReadingPair) :
    nonEmptyReadings (a ++ b) = nonEmptyReadings a ++ nonEmptyReadings b := by
  simp [nonEmptyReadings]

theorem nonEmptyReadings_single_ne {t r : String} (h : r ≠ "") :
    nonEmptyReadings [⟨t, r⟩] = [r] := by
  simp [nonEmptyReadings, h]

theorem nonEmptyReadings_single_empty (t : String) :
    nonEmptyReadings [⟨t, ""⟩] = [] := by
  simp [nonEmptyReadings]

/-- A successful alignment run of `n` further iterations pushes exactly one
pair per iteration and consumes exactly one text token per iteration, so the
text suffix must hold at least `n` tokens. -/
theorem alignGo_ok_length :
    ∀ (n : Nat) (ts rs : List String) (acc res : List TextReadingPair)
      (ts' rs' : List String),
      alignGo n ts rs acc = .ok (res, ts', rs') →
      res.length = acc.length + n ∧ n ≤ ts.length := by
  intro n
  induction n with
  | zero =>
    intro ts rs acc res ts' rs' h
    simp only [alignGo, Except.ok.injEq, Prod.mk.injEq] at h
    obtain ⟨h1, _, _⟩ := h
    simp [← h1]
  | succ n ih =>
    intro ts rs acc res ts' rs' h
    simp only [alignGo] at h
    by_cases h1 : alignCond1 ts.head? rs.head? = true
    · rw [if_pos h1] at h
      obtain ⟨hlen, hle⟩ := ih _ _ _ _ _ _ h
      obtain ⟨a, t, hts, _⟩ := truthy_head (alignCond1_parts h1).1
      subst hts
      simp only [List.length_append, List.length_cons, List.length_nil, List.tail_cons] at hlen hle ⊢
      omega
    · rw [if_neg h1] at h
      by_cases h2 : alignCond2 ts.head? rs.head? = true
      · rw [if_pos h2] at h
        obtain ⟨hlen, hle⟩ := ih _ _ _ _ _ _ h
        obtain ⟨a, t, hts, _⟩ := truthy_head (alignCond2_truthy h2)
        subst hts
        simp only [List.length_append, List.length_cons, List.length_nil, List.tail_cons] at hlen hle ⊢
        omega
      · rw [if_neg h2] at h
        by_cases h3 : alignCond3 ts.head? rs.head? = true
        · rw [if_pos h3] at h
          obtain ⟨hlen, hle⟩ := ih _ _ _ _ _ _ h
          obtain ⟨a, t, hts, _⟩ := truthy_head (alignCond3_parts h3).1
          subst hts
          simp only [List.length_append, List.length_cons, List.length_nil, List.tail_cons] at hlen hle ⊢
          omega
        · rw [if_neg h3] at h
          exact absurd h (by simp)

/-- A successful alignment run consumes an initial segment of the reading
suffix, and the non-empty readings it emits are exactly the consumed reading
tokens that contain an ASCII alphanumeric (rule 1 emits them verbatim; rule 3
consumes alphanumeric-free tokens and emits nothing). -/
theorem alignGo_ok_readings :
    ∀ (n : Nat) (ts rs : List String) (acc res : List TextReadingPair)
      (ts' rs' : List String),
      alignGo n ts rs acc = .ok (res, ts', rs') →
      ∃ consumed, rs = consumed ++ rs' ∧
        nonEmptyReadings res = nonEmptyReadings acc ++ consumed.filter isJyuutping := by
  intro n
  induction n with
  | zero =>
    intro ts rs acc res ts' rs' h
    simp only [alignGo, Except.ok.injEq, Prod.mk.injEq] at h
    obtain ⟨h1, _, h3⟩ := h
    exact ⟨[], by simp [h3], by simp [← h1]⟩
  | succ n ih =>
    intro ts rs acc res ts' rs' h
    simp only [alignGo] at h
    by_cases h1 : alignCond1 ts.head? rs.head? = true
    · rw [if_pos h1] at h
      obtain ⟨_, hr, hj⟩ := alignCond1_parts h1
      obtain ⟨r, rt, hrs, hrne⟩ := truthy_head hr
      subst hrs
      simp only [List.head?_cons, Option.getD_some, List.tail_cons] at h hj
      obtain ⟨consumed, hc1, hc2⟩ := ih _ _ _ _ _ _ h
      refine ⟨r :: consumed, by simp [hc1], ?_⟩
      rw [hc2, nonEmptyReadings_append, nonEmptyReadings_single_ne hrne]
      simp [List.filter_cons, hj]
    · rw [if_neg h1] at h
      by_cases h2 : alignCond2 ts.head? rs.head? = true
      · rw [if_pos h2] at h
        obtain ⟨consumed, hc1, hc2⟩ := ih _ _ _ _ _ _ h
        refine ⟨consumed, hc1, ?_⟩
        rw [hc2, nonEmptyReadings_append, nonEmptyReadings_single_empty]
        simp
      · rw [if_neg h2] at h
        by_cases h3 : alignCond3 ts.head? rs.head? = true
        · rw [if_pos h3] at h
          obtain ⟨_, hr, hj⟩ := alignCond3_parts h3
          obtain ⟨r, rt, hrs, _⟩ := truthy_head hr
          subst hrs
          simp only [List.head?_cons, Option.getD_some, List.tail_cons] at h hj
          obtain ⟨consumed, hc1, hc2⟩ := ih _ _ _ _ _ _ h
          refine ⟨r :: consumed, by simp [hc1], ?_⟩
          rw [hc2, nonEmptyReadings_append, nonEmptyReadings_single_empty]
          simp [List.filter_cons, hj]
        · rw [if_neg h3] at h
          exact absurd h (by simp)

theorem isAlphaChar_isAlnumChar {c : Char} (h : isAlphaChar c = true) :
    isAlnumChar c = true := by
  simp only [isAlphaChar, Bool.or_eq_true] at h
  simp only [isAlnumChar, Bool.or_eq_true]
  tauto

/-! ## Claims C1–C3 -/

/-- C1, counterexample: on text `。` with readings `。` the aligner returns
without throwing — rule 3 consumes the punctuation reading token but emits an
empty reading — so the non-empty reading fields do not reproduce the reading
token sequence. -/
theorem C1_counterexample :
    parseCantoneseReadings "。" "。" = .ok [⟨"。", ""⟩] ∧
    nonEmptyReadings [⟨"。", ""⟩] ≠ splitString "。" :=
  ⟨rfl, by decide⟩

/-- C1, amended: for every pair on which `parseCantoneseReadings` returns, the
output length equals the number of text tokens, and the non-empty reading
fields, in order, equal the subsequence of reading tokens containing an ASCII
alphanumeric character (punctuation reading tokens are consumed but dropped). -/
theorem C1_amended (t r : String) (res : List TextReadingPair)
    (h : parseCantoneseReadings t r = .ok res) :
    res.length = (splitString t).length ∧
    nonEmptyReadings res = (splitString r).filter isJyuutping := by
  simp only [parseCantoneseReadings] at h
  cases hA : alignGo (max (splitString t).length (splitString r).length)
      (splitString t) (splitString r) [] with
  | error e => rw [hA] at h; exact absurd h (by simp)
  | ok v =>
    obtain ⟨res0, ts', rs'⟩ := v
    rw [hA] at h
    by_cases he : rs'.isEmpty = true
    · simp only [he, if_true, Except.ok.injEq] at h
      subst h
      obtain ⟨hlen, hle⟩ := alignGo_ok_length _ _ _ _ _ _ _ hA
      obtain ⟨consumed, hc1, hc2⟩ := alignGo_ok_readings _ _ _ _ _ _ _ hA
      have hre : rs' = [] := by
        cases rs' with
        | nil => rfl
        | cons a l => simp [List.isEmpty] at he
      subst hre
      have hmax : max (splitString t).length (splitString r).length =
          (splitString t).length :=
        Nat.le_antisymm hle (Nat.le_max_left _ _)
      constructor
      · simpa [hmax] using hlen
      · have hcons : consumed = splitString r := by simpa using hc1.symm
        rw [← hcons]
        simpa [nonEmptyReadings] using hc2
    · simp only [he, if_false] at h
      exact absurd h (by simp)

theorem C1_amended_witness :
    ([(⟨"你", "nei5"⟩ : TextReadingPair)]).length = (splitString "你").length ∧
    nonEmptyReadings [⟨"你", "nei5"⟩] = (splitString "nei5").filter isJyuutping :=
  C1_amended "你" "nei5" [⟨"你", "nei5"⟩] (by rfl)

/-- C2, counterexample: `splitString "bitging"` keeps the purely alphabetic
run together; the boundary is only forced after a digit. -/
theorem C2_counterexample :
    splitString "bitging" = ["bitging"] ∧ splitString "bitging" ≠ ["bit", "ging"] :=
  ⟨by decide, by decide⟩

/-- C2, amended: the tokenizer coalesces consecutive alphanumeric characters
into one run but forces a new token boundary when an alphabetic character
directly follows an already-open run whose last character was a digit (not
alphabetic); in particular `splitString "bit1ging1"` yields `bit1`,`ging1`
while `splitString "bitging"` stays one token. -/
theorem C2_amended :
    splitString "bit1ging1" = ["bit1", "ging1"] ∧
    splitString "bitging" = ["bitging"] ∧
    (∀ (acc : List String) (current : String) (c : Char),
      current ≠ "" → isAlphaChar c = true → lastIsAlpha current = true →
      splitStep (acc, current) c = (acc, current.push c)) ∧
    (∀ (acc : List String) (current : String) (c : Char),
      current ≠ "" → isAlphaChar c = true → lastIsAlpha current = false →
      splitStep (acc, current) c = (acc ++ [current], String.mk [c])) := by
  refine ⟨by decide, by decide, ?_, ?_⟩
  · intro acc current c hne hal hlast
    simp [splitStep, isAlphaChar_isAlnumChar hal, hlast, hne]
  · intro acc current c hne hal hlast
    simp [splitStep, isAlphaChar_isAlnumChar hal, hal, hlast, hne]

theorem C2_amended_witness :
    splitStep ([], "b") 'c' = ([], "bc") ∧
    splitStep ([], "bit1") 'g' = (["bit1"], "g") :=
  ⟨C2_amended.2.2.1 [] "b" 'c' (by decide) (by decide) (by decide),
   C2_amended.2.2.2 [] "bit1" 'g' (by decide) (by decide) (by decide)⟩

/-- C3: whenever the alignment loop finishes with unconsumed reading tokens
the function throws; text `你` with readings `nei5 hou2` throws; text tokens
outliving the readings (trailing punctuation) are accepted with empty-reading
pairs. -/
theorem C3 :
    (∀ (t r : String) (pairs : List TextReadingPair) (ts' rs' : List String),
      alignGo (max (splitString t).length (splitString r).length)
          (splitString t) (splitString r) [] = .ok (pairs, ts', rs') →
      rs' ≠ [] → isErr (parseCantoneseReadings t r) = true) ∧
    isErr (parseCantoneseReadings "你" "nei5 hou2") = true ∧
    parseCantoneseReadings "你。" "nei5" = .ok [⟨"你", "nei5"⟩, ⟨"。", ""⟩] := by
  refine ⟨?_, by decide, rfl⟩
  intro t r pairs ts' rs' hA hne
  simp only [parseCantoneseReadings]
  rw [hA]
  have he : rs'.isEmpty = false := by
    cases rs' with
    | nil => exact absurd rfl hne
    | cons a l => rfl
  simp [he, isErr]

theorem C3_witness : isErr (parseCantoneseReadings "。" "nei5") = true :=
  C3.1 "。" "nei5" [⟨"。", ""⟩] [] ["nei5"] (by rfl) (by decide)

/-! ## Claims C4–C7 -/

/-- C4: the guard `!text || !readings` in `parseHeadwords` can only fire
through `!text`, because the rest-element `readings` is always an array and
arrays are truthy in JavaScript; so the reading-less group `飲茶` is accepted
with an empty readings list instead of raising the intended `ParseError`,
while the well-formed group parses as the claim describes. -/
theorem C4_eval :
    parseHeadwords "飲茶" = .ok [⟨"飲茶", []⟩] ∧
    parseHeadwords "飲茶:jam2 caa4" = .ok [⟨"飲茶", ["jam2 caa4"]⟩] :=
  ⟨rfl, rfl⟩

/-- If some line of the block contains a colon and its part before the first
colon makes the truthy language lookup fail (neither an own key nor an
inherited `Object.prototype` name), the line loop throws, whatever state it
is in. -/
theorem pldGo_error_of_bad :
    ∀ (lines : List String) (ld : LanguageData) (lang data : String),
      (∃ line ∈ lines, line.data.contains ':' = true ∧
        isLanguage (beforeColon line) = false) →
      isErr (pldGo lines ld lang data) = true := by
  intro lines
  induction lines with
  | nil =>
    intro ld lang data h
    obtain ⟨line, hm, _⟩ := h
    simp at hm
  | cons a rest ih =>
    intro ld lang data h
    obtain ⟨line, hm, hc, hl⟩ := h
    simp only [List.mem_cons] at hm
    rcases hm with rfl | hm
    · have hc2 : ':' ∈ line.data := by simpa using hc
      simp [pldGo, hc2, hl, isErr]
    · by_cases hac : a.data.contains ':' = true
      · by_cases hal : isLanguage (beforeColon a) = true
        · simp only [pldGo, hac, hal, Bool.not_true, Bool.false_eq_true, if_false]
          cases hst : addCurrentLangData ld lang data with
          | error e => simp [hst, isErr]
          | ok st =>
            simp only [hst]
            exact ih _ _ _ ⟨line, hm, hc, hl⟩
        · have hac2 : ':' ∈ a.data := by simpa using hac
          simp [pldGo, hac2, hal, isErr]
      · have hacf : a.data.contains ':' = false := by simpa using hac
        simp only [pldGo, hacf, Bool.not_false, if_true]
        exact ih _ _ _ ⟨line, hm, hc, hl⟩

/-- A colon-bearing line whose language candidate fails the truthy lookup —
being neither one of the fourteen enumeration keys nor an inherited
`Object.prototype` name — makes `parseLanguageData` throw; such a line is
never handled by the continuation branch. -/
theorem parseLanguageData_unknownKey_throws (text line : String)
    (hm : line ∈ jsSplitChar '\n' text)
    (hc : line.data.contains ':' = true)
    (hl : isLanguage (beforeColon line) = false) :
    isErr (parseLanguageData text) = true := by
  unfold parseLanguageData
  exact pldGo_error_of_bad _ _ _ _ ⟨line, hm, hc, hl⟩

/-- C5: the truthy check `!LANGUAGES_DATA[matchedLang]` consults the
prototype chain, so a colon line whose unrecognized code happens to be an
`Object.prototype` property name passes as a language line: with an empty
buffer the code is silently dropped and the parse returns the empty map with
no error, and with non-empty content the final flush calls `push` on the
inherited function, a `TypeError` rather than the claimed `ParseError`
(whose message here would be the `Invalid language:` form). -/
theorem C5_eval :
    parseLanguageData "constructor:" = .ok [] ∧
    parseLanguageData "toString:x" =
      .error ("TypeError: languageData[currentLang].push is not a function") ∧
    parseLanguageData "abc:x" = .error ("Invalid language: abc") :=
  ⟨rfl, rfl, rfl⟩

/-- C6: the block `eng:hello\nyue:你好\neng:world` yields two separate `eng`
segments in per-key order, never one merged segment. -/
theorem C6 :
    parseLanguageData "eng:hello\nyue:你好\neng:world" =
      .ok [("eng", ["hello", "world"]), ("yue", ["你好"])] := rfl

/-- C7, counterexample: the id validation is only `isNaN(parseInt(id))`, so
the non-positive ids `0` and `-3` are accepted and the full rows parse. -/
theorem C7_counterexample :
    parseEntry ⟨"0", "飲茶:jam2 caa4", "(pos:名詞)\nyue:好", "", "", ""⟩ =
      .ok ⟨0, [⟨"飲茶", ["jam2 caa4"]⟩], [⟨"pos", "名詞"⟩],
           [⟨[("yue", ["好"])], []⟩]⟩ ∧
    parseEntry ⟨"-3", "飲茶:jam2 caa4", "(pos:名詞)\nyue:好", "", "", ""⟩ =
      .ok ⟨-3, [⟨"飲茶", ["jam2 caa4"]⟩], [⟨"pos", "名詞"⟩],
           [⟨[("yue", ["好"])], []⟩]⟩ :=
  ⟨rfl, rfl⟩

/-- C7, amended: `parseEntry` throws a `ParseError` exactly when `parseInt`
of the id field is `NaN` (text with no leading optionally-signed numeral); on
success the returned id equals that `parseInt` value, which may be zero or
negative. -/
theorem C7_amended (rec : CsvRecord) :
    (js_parseInt rec.id = none → isErr (parseEntry rec) = true) ∧
    (∀ e, parseEntry rec = .ok e → some e.id = js_parseInt rec.id) := by
  constructor
  · intro h
    simp [parseEntry, h, isErr]
  · intro e he
    cases hid : js_parseInt rec.id with
    | none => simp [parseEntry, hid] at he
    | some i =>
      cases hh : parseHeadwords rec.headword with
      | error e1 => simp [parseEntry, hid, hh] at he
      | ok hws =>
        cases ht : parseTags (jsSplitChar '\n' rec.entry) with
        | error e2 => simp [parseEntry, hid, hh, ht] at he
        | ok p =>
          obtain ⟨tags, restLines⟩ := p
          cases hs : mapE parseSense (regexLineSplit "----" (joinNL restLines)) with
          | error e3 => simp [parseEntry, hid, hh, ht, hs] at he
          | ok senses =>
            simp only [parseEntry, hid, hh, ht, hs, Except.ok.injEq] at he
            rw [← he]

theorem C7_amended_witness :
    isErr (parseEntry ⟨"abc", "x", "y", "", "", ""⟩) = true :=
  (C7_amended ⟨"abc", "x", "y", "", "", ""⟩).1 (by rfl)

/-! ## Claims C8–C9 -/

/-- A successful `mapE` run returns one output per input. -/
theorem mapE_ok_length {α β : Type} (f : α → Except String β) :
    ∀ (l : List α) (res : List β), mapE f l = .ok res → res.length = l.length := by
  intro l
  induction l with
  | nil =>
    intro res h
    simp only [mapE, Except.ok.injEq] at h
    simp [← h]
  | cons a rest ih =>
    intro res h
    cases hf : f a with
    | error e => simp [mapE, hf] at h
    | ok b =>
      cases hr : mapE f rest with
      | error e => simp [mapE, hf, hr] at h
      | ok bs =>
        simp only [mapE, hf, hr, Except.ok.injEq] at h
        rw [← h]
        simp [ih _ hr]

/-- The function `parseTags` succeeds only by shifting off exactly the first line. -/
theorem parseTags_rest :
    ∀ (lines : List String) (tags : List Tag) (rest : List String),
      parseTags lines = .ok (tags, rest) → rest = lines.drop 1 := by
  intro lines tags rest h
  cases lines with
  | nil => simp [parseTags] at h
  | cons l t =>
    simp only [parseTags] at h
    split at h
    · exact absurd h (by simp)
    · split at h
      · exact absurd h (by simp)
      · split at h
        · exact absurd h (by simp)
        · simp only [Except.ok.injEq, Prod.mk.injEq] at h
          simpa using h.2.symm

/-- C8: the senses are exactly the blocks obtained by splitting the
tag-stripped body on full `----` lines, one `Sense` per block; the concrete
body with one delimiter line yields exactly two senses, each holding only its
own example block. -/
theorem C8 :
    (∀ (rec : CsvRecord) (e : DictionaryEntry), parseEntry rec = .ok e →
      e.senses.length =
        (regexLineSplit "----" (joinNL ((jsSplitChar '\n' rec.entry).drop 1))).length) ∧
    parseEntry ⟨"1", "一:jat1",
        "(pos:名詞)\nyue:一\n<eg>\nyue:甲\n----\nyue:二\n<eg>\nyue:乙", "", "", ""⟩ =
      .ok ⟨1, [⟨"一", ["jat1"]⟩], [⟨"pos", "名詞"⟩],
           [⟨[("yue", ["一"])], [[("yue", ["甲"])]]⟩,
            ⟨[("yue", ["二"])], [[("yue", ["乙"])]]⟩]⟩ := by
  refine ⟨?_, rfl⟩
  intro rec e he
  cases hid : js_parseInt rec.id with
  | none => simp [parseEntry, hid] at he
  | some i =>
    cases hh : parseHeadwords rec.headword with
    | error e1 => simp [parseEntry, hid, hh] at he
    | ok hws =>
      cases ht : parseTags (jsSplitChar '\n' rec.entry) with
      | error e2 => simp [parseEntry, hid, hh, ht] at he
      | ok p =>
        obtain ⟨tags, restLines⟩ := p
        cases hs : mapE parseSense (regexLineSplit "----" (joinNL restLines)) with
        | error e3 => simp [parseEntry, hid, hh, ht, hs] at he
        | ok senses =>
          simp only [parseEntry, hid, hh, ht, hs, Except.ok.injEq] at he
          have hrest : restLines = (jsSplitChar '\n' rec.entry).drop 1 :=
            parseTags_rest _ _ _ ht
          rw [← he]
          simpa [hrest] using mapE_ok_length parseSense _ _ hs

theorem C8_witness :
    (⟨1, [⟨"一", ["jat1"]⟩], [⟨"pos", "名詞"⟩],
      [⟨[("yue", ["一"])], [[("yue", ["甲"])]]⟩,
       ⟨[("yue", ["二"])], [[("yue", ["乙"])]]⟩]⟩ : DictionaryEntry).senses.length =
      (regexLineSplit "----" (joinNL ((jsSplitChar '\n'
        ("(pos:名詞)\nyue:一\n<eg>\nyue:甲\n----\nyue:二\n<eg>\nyue:乙")).drop 1))).length :=
  C8.1 ⟨"1", "一:jat1", "(pos:名詞)\nyue:一\n<eg>\nyue:甲\n----\nyue:二\n<eg>\nyue:乙",
        "", "", ""⟩
    ⟨1, [⟨"一", ["jat1"]⟩], [⟨"pos", "名詞"⟩],
     [⟨[("yue", ["一"])], [[("yue", ["甲"])]]⟩,
      ⟨[("yue", ["二"])], [[("yue", ["乙"])]]⟩]⟩ (by rfl)

/-- C9: the tag line splits on the literal `)(`, parentheses are stripped,
each fragment splits at its first colon and both halves are trimmed; a first
line lacking the `(pos:` marker is a `ParseError`. -/
theorem C9 :
    parseTags ["(pos:名詞)(label:書面語)"] =
      .ok ([⟨"pos", "名詞"⟩, ⟨"label", "書面語"⟩], []) ∧
    (∀ (l : String) (rest : List String),
      ("(pos:").data.isPrefixOf l.data = false →
      isErr (parseTags (l :: rest)) = true) := by
  refine ⟨rfl, ?_⟩
  intro l rest h
  simp [parseTags, h, isErr]

theorem C9_witness : isErr (parseTags ["x"]) = true :=
  C9.2 "x" [] (by decide)

/-! ## Claim C10 -/

/-- No leading and no trailing JavaScript whitespace. -/
def isTrimmed (s : String) : Bool :=
  (match s.data.head? with | some c => !(jsWsChar c) | none => true) &&
  (match s.data.getLast? with | some c => !(jsWsChar c) | none => true)

/-- Every language key maps to a non-empty segment list, whose segments all
carry no leading or trailing whitespace. -/
def allSegsOk (ld : LanguageData) : Bool :=
  ld.all (fun kv => !(kv.2.isEmpty) && kv.2.all isTrimmed)

theorem head_dropWhile_not {α : Type} (p : α → Bool) :
    ∀ (l : List α) (a : α), (l.dropWhile p).head? = some a → p a = false := by
  intro l
  induction l with
  | nil => intro a h; simp [List.dropWhile] at h
  | cons x t ih =>
    intro a h
    rw [List.dropWhile_cons] at h
    by_cases hx : p x = true
    · rw [if_pos hx] at h
      exact ih a h
    · rw [if_neg hx] at h
      simp only [List.head?_cons, Option.some.injEq] at h
      subst h
      simpa using hx

theorem getLast?_dropWhile {α : Type} (p : α → Bool) :
    ∀ (l : List α), l.dropWhile p ≠ [] → (l.dropWhile p).getLast? = l.getLast? := by
  intro l
  induction l with
  | nil => intro h; simp [List.dropWhile] at h
  | cons x t ih =>
    intro h
    rw [List.dropWhile_cons] at h ⊢
    by_cases hx : p x = true
    · rw [if_pos hx] at h ⊢
      rw [ih h]
      have ht : t ≠ [] := by
        intro he
        subst he
        simp [List.dropWhile] at h
      cases t with
      | nil => exact absurd rfl ht
      | cons y t2 => exact List.getLast?_cons_cons.symm
    · rw [if_neg hx]

theorem head_trimChars_not_ws {l : List Char} {c : Char}
    (h : (trimChars l).head? = some c) : jsWsChar c = false := by
  unfold trimChars at h
  rw [List.head?_reverse] at h
  have hne : (l.dropWhile jsWsChar).reverse.dropWhile jsWsChar ≠ [] := by
    intro he
    rw [he] at h
    simp at h
  rw [getLast?_dropWhile _ _ hne, List.getLast?_reverse] at h
  exact head_dropWhile_not _ _ _ h

theorem getLast_trimChars_not_ws {l : List Char} {c : Char}
    (h : (trimChars l).getLast? = some c) : jsWsChar c = false := by
  unfold trimChars at h
  rw [List.getLast?_reverse] at h
  exact head_dropWhile_not _ _ _ h

/-- The buffer flushed by `addCurrentLangData` is always a trimmed string. -/
theorem isTrimmed_jsTrim (s : String) : isTrimmed (jsTrim s) = true := by
  have hd : (jsTrim s).data = trimChars s.data := rfl
  simp only [isTrimmed, hd, Bool.and_eq_true]
  constructor
  · cases hh : (trimChars s.data).head? with
    | none => simp
    | some c => simp [head_trimChars_not_ws hh]
  · cases hh : (trimChars s.data).getLast? with
    | none => simp
    | some c => simp [getLast_trimChars_not_ws hh]

theorem allSegsOk_pushSeg {ld : LanguageData} {k v : String}
    (h : allSegsOk ld = true) (hv : isTrimmed v = true) :
    allSegsOk (pushSeg ld k v) = true := by
  unfold pushSeg
  by_cases hk : ld.any (fun kv => kv.1 == k) = true
  · rw [if_pos hk]
    simp only [allSegsOk, List.all_eq_true] at h ⊢
    intro kv hkv
    simp only [List.mem_map] at hkv
    obtain ⟨kv0, hkv0, rfl⟩ := hkv
    by_cases he : (kv0.1 == k) = true
    · rw [if_pos he]
      have h0 := h kv0 hkv0
      simp only [Bool.and_eq_true, List.all_eq_true, Bool.not_eq_true'] at h0 ⊢
      obtain ⟨h1, h2⟩ := h0
      constructor
      · simp
      · intro s hs
        simp only [List.mem_append, List.mem_singleton] at hs
        rcases hs with hs | rfl
        · exact h2 s hs
        · exact hv
    · rw [if_neg he]
      exact h kv0 hkv0
  · rw [if_neg hk]
    simp only [allSegsOk, List.all_eq_true] at h ⊢
    intro kv hkv
    simp only [List.mem_append, List.mem_singleton] at hkv
    rcases hkv with hkv | rfl
    · exact h kv hkv
    · simp [hv]

theorem allSegsOk_add {ld : LanguageData} (lang data : String)
    (st : LanguageData × String × String)
    (hst : addCurrentLangData ld lang data = .ok st)
    (h : allSegsOk ld = true) :
    allSegsOk st.1 = true := by
  unfold addCurrentLangData at hst
  by_cases h1 : (lang == "") = true
  · rw [if_pos h1] at hst
    simp only [Except.ok.injEq] at hst
    rw [← hst]
    exact h
  · rw [if_neg h1] at hst
    by_cases h2 : (data == "") = true
    · rw [if_pos h2] at hst
      simp only [Except.ok.injEq] at hst
      rw [← hst]
      exact h
    · rw [if_neg h2] at hst
      by_cases h3 : (!(ld.any (fun kv => kv.1 == lang)) && protoKeys.contains lang) = true
      · rw [if_pos h3] at hst
        exact absurd hst (by simp)
      · rw [if_neg h3] at hst
        simp only [Except.ok.injEq] at hst
        rw [← hst]
        exact allSegsOk_pushSeg h (isTrimmed_jsTrim data)

/-- The segment-list invariant is preserved through the whole line loop. -/
theorem pldGo_allSegsOk :
    ∀ (lines : List String) (ld : LanguageData) (lang data : String)
      (res : LanguageData),
      pldGo lines ld lang data = .ok res → allSegsOk ld = true →
      allSegsOk res = true := by
  intro lines
  induction lines with
  | nil =>
    intro ld lang data res h hok
    cases hst : addCurrentLangData ld lang data with
    | error e => simp [pldGo, hst] at h
    | ok st =>
      simp only [pldGo, hst, Except.ok.injEq] at h
      rw [← h]
      exact allSegsOk_add lang data st hst hok
  | cons a rest ih =>
    intro ld lang data res h hok
    simp only [pldGo] at h
    by_cases hac : (!(a.data.contains ':')) = true
    · rw [if_pos hac] at h
      exact ih _ _ _ _ h hok
    · rw [if_neg hac] at h
      by_cases hal : (!(isLanguage (beforeColon a))) = true
      · rw [if_pos hal] at h
        exact absurd h (by simp)
      · rw [if_neg hal] at h
        cases hst : addCurrentLangData ld lang data with
        | error e => rw [hst] at h; exact absurd h (by simp)
        | ok st =>
          rw [hst] at h
          exact ih _ _ _ _ h (allSegsOk_add lang data st hst hok)

/-- C10, counterexample: a language line with empty text followed by a
whitespace-only continuation line produces an *empty* segment — the buffer
`"\n"` is truthy, escapes the empty-buffer guard, and trims to `""`. -/
theorem C10_counterexample :
    parseLanguageData "yue:\n " = .ok [("yue", [""])] ∧
    ¬ (∀ seg ∈ ([""] : List String), seg ≠ "") :=
  ⟨rfl, fun h => h "" (by simp) rfl⟩

/-- C10, amended: every key of a returned `LanguageData` maps to a non-empty
segment list and every segment carries no leading or trailing whitespace —
but a segment itself may be the empty string, arising from whitespace-only
continuation content; a recognized language line with empty text and no
continuation contributes no segment. -/
theorem C10_amended :
    (∀ (text : String) (res : LanguageData),
      parseLanguageData text = .ok res → allSegsOk res = true) ∧
    parseLanguageData "yue:" = .ok [] := by
  refine ⟨?_, rfl⟩
  intro text res h
  exact pldGo_allSegsOk _ _ _ _ _ h rfl

theorem C10_amended_witness : allSegsOk [("yue", ["好"])] = true :=
  C10_amended.1 "yue:好" [("yue", ["好"])] (by rfl)
